import Mathlib

/-!
Shallow embedding of the credential-rotation proxy core (`proxy.go` of the
geminiproxy repository) and proofs about its specification claims.

Modelling conventions:
* Go `uint64` fields are `Nat` with every update reduced modulo `U64 = 2 ^ 64`,
  mirroring wrap-around semantics.
* The file system, wall-clock timestamps, logging and locking are outside the
  model; methods that mutate state through pointers become functions that
  return the updated state.
* Go strings are modelled as Lean `String`s; byte positions coincide with
  character positions on ASCII data, which is what API keys and paths are.
-/

/-- Modulus of Go's `uint64` arithmetic. -/
def U64 : Nat := 2 ^ 64

/-- `MaxRecentErrors` (proxy.go line 28): capacity of the recent-errors list. -/
def MaxRecentErrors : Nat := 10

/-- `ErrorDetail` (proxy.go lines 33-40), without the wall-clock `Timestamp`. -/
structure ErrorDetail where
  sourceID : String
  model : String
  apiKeyID : String
  errorType : String
  message : String
deriving DecidableEq

/-- `APIKeyInfo` (proxy.go lines 45-56), without the per-key mutex. -/
structure APIKeyInfo where
  name : String
  key : String
  enabled : Bool
  requests : Nat
  successes : Nat
  failures : Nat
  totalLatencyMicroseconds : Nat
  averageLatencyMicroseconds : Nat
  status : String
deriving DecidableEq

instance : Inhabited APIKeyInfo :=
  ⟨⟨"", "", false, 0, 0, 0, 0, 0, ""⟩⟩

/-- `GlobalProxyStats` (proxy.go lines 61-72), without the mutex and the
atomic `ActiveConnections` / unimplemented data-size placeholders. -/
structure GlobalProxyStats where
  totalRequests : Nat
  totalSuccesses : Nat
  totalFailures : Nat
  overallAverageLatencyMicroseconds : Nat
  recentErrors : List ErrorDetail
  totalLatencyForAverage : Nat
deriving DecidableEq

/-- `KeyManager` (proxy.go lines 86-90). -/
structure KeyManager where
  keys : List APIKeyInfo
  currentKeyIdx : Nat
deriving DecidableEq

/-- Whitespace test used by Go's `strings.TrimSpace` restricted to ASCII. -/
def isSpaceChar (c : Char) : Bool :=
  c == ' ' || c == '\t' || c == '\n' || c == '\r' || c == '\x0b' || c == '\x0c'

/-- Character-level model of Go's `strings.TrimSpace`. -/
def trimSpaceChars (cs : List Char) : List Char :=
  ((cs.dropWhile isSpaceChar).reverse.dropWhile isSpaceChar).reverse

/-- Character-level model of Go's `strings.Split` with a one-character
separator: splitting the empty list yields one empty field, and every
occurrence of `sep` starts a new field. -/
def splitOnChar (sep : Char) : List Char → List (List Char)
  | [] => [[]]
  | c :: rest =>
      let r := splitOnChar sep rest
      if c = sep then [] :: r
      else (c :: r.headD []) :: r.tail

/-- The keep condition of the loop in `readRawAPIKeys` (proxy.go line 138):
after trimming, drop empty lines and lines starting with `#`. -/
def keepKeyLine (key : List Char) : Bool :=
  match key with
  | [] => false
  | c :: _ => c != '#'

/-- The surviving key lines of a key-file content string, exactly as the loop
of `readRawAPIKeys` (proxy.go lines 133-141) collects them: split on
newlines, trim each line, keep non-empty lines not starting with `#`. -/
def keyLines (content : String) : List String :=
  (((splitOnChar '\n' content.data).map trimSpaceChars).filter keepKeyLine).map
    List.asString

/-- `readRawAPIKeys` (proxy.go lines 127-143). The file system is modelled by
an `Option String` argument: `none` is a failed read, `some content` the
file's content. -/
def readRawAPIKeys (fileContent : Option String) : Except String (List String) :=
  match fileContent with
  | none => Except.error "failed to read keys file"
  | some content => Except.ok (keyLines content)

/-- The masked display name computed inside `NewKeyManager` (proxy.go lines
107-112): keys longer than 5 characters display as `"..."` plus their last 5
characters, shorter keys display verbatim. -/
def maskKeyName (keyStr : String) : String :=
  if keyStr.length > 5 then "..." ++ (keyStr.data.drop (keyStr.length - 5)).asString
  else keyStr

/-- The fresh `APIKeyInfo` built for each raw key inside `NewKeyManager`
(proxy.go lines 113-118): stats zeroed, enabled, status `"Active"`. -/
def newAPIKeyInfo (keyStr : String) : APIKeyInfo :=
  { name := maskKeyName keyStr
    key := keyStr
    enabled := true
    requests := 0
    successes := 0
    failures := 0
    totalLatencyMicroseconds := 0
    averageLatencyMicroseconds := 0
    status := "Active" }

/-- `NewKeyManager` (proxy.go lines 96-121). -/
def NewKeyManager (fileContent : Option String) : Except String KeyManager :=
  match readRawAPIKeys fileContent with
  | Except.error e => Except.error e
  | Except.ok rawKeys =>
      if rawKeys.length = 0 then Except.error "no API keys found"
      else Except.ok { keys := rawKeys.map newAPIKeyInfo, currentKeyIdx := 0 }

/-- `KeyManager.GetKey` (proxy.go lines 151-175). Returns the selected pool
index (`none` when the pool is empty or every key is disabled) together with
the updated manager; on the failure paths the Go code never writes
`currentKeyIdx`, so the manager comes back unchanged. -/
def GetKey (km : KeyManager) : Option Nat × KeyManager :=
  if km.keys.length = 0 then (none, km)
  else
    match (List.range km.keys.length).find? (fun i =>
        (km.keys.getD ((km.currentKeyIdx + i) % km.keys.length) default).enabled) with
    | some i =>
        let idx := (km.currentKeyIdx + i) % km.keys.length
        (some idx, { km with currentKeyIdx := (idx + 1) % km.keys.length })
    | none => (none, km)

/-- Calling `GetKey` repeatedly, collecting the selection results in order. -/
def getKeySeq (km : KeyManager) : Nat → List (Option Nat)
  | 0 => []
  | Nat.succ n =>
      match GetKey km with
      | (r, km1) => r :: getKeySeq km1 n

/-- The field update shared by `ToggleKeyStatus` and `SetKeyStatus`
(proxy.go lines 189-194 and 221-226): set `Enabled` and mirror it in the
`Status` label. -/
def setStatusFields (ki : APIKeyInfo) (enabled : Bool) : APIKeyInfo :=
  { ki with enabled := enabled, status := if enabled then "Active" else "Disabled" }

/-- The display form used in the not-found messages of `ToggleKeyStatus` and
`SetKeyStatus` (proxy.go lines 201-206 and 233-238). -/
def keyNotFoundDisplay (keyStr : String) : String :=
  if keyStr.length > 5 then "..." ++ (keyStr.data.drop (keyStr.length - 5)).asString
  else keyStr

/-- The loop of `ToggleKeyStatus` (proxy.go lines 186-199): update the first
key whose secret equals `keyStr`, `none` when no key matches. -/
def toggleKeyStatusList : List APIKeyInfo → String → Option (List APIKeyInfo)
  | [], _ => none
  | ki :: rest, keyStr =>
      if ki.key = keyStr then some (setStatusFields ki (!ki.enabled) :: rest)
      else (toggleKeyStatusList rest keyStr).map (fun l => ki :: l)

/-- `KeyManager.ToggleKeyStatus` (proxy.go lines 182-208). -/
def ToggleKeyStatus (km : KeyManager) (keyStr : String) : Except String KeyManager :=
  match toggleKeyStatusList km.keys keyStr with
  | some keys => Except.ok { km with keys := keys }
  | none =>
      Except.error ("key '" ++ keyNotFoundDisplay keyStr ++ "' not found for toggling status")

/-- The loop of `SetKeyStatus` (proxy.go lines 218-231): set the first key
whose secret equals `keyStr`, `none` when no key matches. -/
def setKeyStatusList : List APIKeyInfo → String → Bool → Option (List APIKeyInfo)
  | [], _, _ => none
  | ki :: rest, keyStr, enabled =>
      if ki.key = keyStr then some (setStatusFields ki enabled :: rest)
      else (setKeyStatusList rest keyStr enabled).map (fun l => ki :: l)

/-- `KeyManager.SetKeyStatus` (proxy.go lines 214-240). -/
def SetKeyStatus (km : KeyManager) (keyStr : String) (enabled : Bool) :
    Except String KeyManager :=
  match setKeyStatusList km.keys keyStr enabled with
  | some keys => Except.ok { km with keys := keys }
  | none =>
      Except.error ("key '" ++ keyNotFoundDisplay keyStr ++ "' not found for setting status")

/-- `APIKeyInfo.RecordRequest` (proxy.go lines 248-263). The `latency`
argument is already in microseconds, as after Go's
`uint64(latency.Microseconds())`; the unused size arguments are dropped. -/
def RecordRequest (ki : APIKeyInfo) (success : Bool) (latencyMicros : Nat) : APIKeyInfo :=
  let requests := (ki.requests + 1) % U64
  let successes := if success then (ki.successes + 1) % U64 else ki.successes
  let failures := if success then ki.failures else (ki.failures + 1) % U64
  let totalLatency := (ki.totalLatencyMicroseconds + latencyMicros) % U64
  let average :=
    if requests > 0 then totalLatency / requests else ki.averageLatencyMicroseconds
  { ki with
    requests := requests
    successes := successes
    failures := failures
    totalLatencyMicroseconds := totalLatency
    averageLatencyMicroseconds := average }

/-- `KeyManager.GetKeyInfoSnapshot` (proxy.go lines 271-291). Each entry is a
fresh struct listing only some fields; Go zero-initialises the rest, in
particular `TotalLatencyMicroseconds` is NOT copied and stays `0`. -/
def GetKeyInfoSnapshot (km : KeyManager) : List APIKeyInfo :=
  km.keys.map (fun keyInfo =>
    { name := keyInfo.name
      key := keyInfo.key
      enabled := keyInfo.enabled
      requests := keyInfo.requests
      successes := keyInfo.successes
      failures := keyInfo.failures
      totalLatencyMicroseconds := 0
      averageLatencyMicroseconds := keyInfo.averageLatencyMicroseconds
      status := keyInfo.status })

/-- The prepend-then-truncate step used for `RecentErrors` in
`proxy.ErrorHandler` and `customTransport.RoundTrip` (proxy.go lines 372-375,
471-474 and 492-495): truncate to `MaxRecentErrors` only when the length
exceeds it. -/
def capRecent (errs : List ErrorDetail) : List ErrorDetail :=
  if errs.length > MaxRecentErrors then errs.take MaxRecentErrors else errs

/-- `proxy.ErrorHandler` (proxy.go lines 357-383): increments only
`TotalFailures` and prepends a `"ProxyError"` detail; `TotalRequests` is not
touched. -/
def ErrorHandler (stats : GlobalProxyStats) (errMsg : String) : GlobalProxyStats :=
  { stats with
    totalFailures := (stats.totalFailures + 1) % U64
    recentErrors := capRecent
      ({ sourceID := "ProxyErrorHandler"
         model := "Unknown"
         apiKeyID := "N/A"
         errorType := "ProxyError"
         message := errMsg } :: stats.recentErrors) }

/-- The scan of `extractModelFromPath` (proxy.go lines 518-526) over the
already-split path segments: the first `"models"` segment with a successor
yields the successor up to the first `':'`. -/
def extractModelAux : List (List Char) → String
  | part :: next :: rest =>
      if part = "models".data then ((splitOnChar ':' next).headD next).asString
      else extractModelAux (next :: rest)
  | _ => "Unknown"

/-- `extractModelFromPath` (proxy.go lines 517-528). -/
def extractModelFromPath (path : String) : String :=
  extractModelAux (splitOnChar '/' path.data)

/-- Stands for the Go standard library's `http.StatusText` lookup table
(used only for the human-readable message field, which no claim depends on). -/
def statusText (_statusCode : Nat) : String :=
  "StatusText"

/-- The outcome of the wrapped transport call in
`customTransport.RoundTrip` (proxy.go line 445): either a network-level
error or a response bearing a status code. -/
inductive TransportResult where
  | transportError (msg : String)
  | response (statusCode : Nat)
deriving DecidableEq

/-- The success test of proxy.go lines 476 and 505: a response with status in
`[200, 300)`; a transport error is never a success. -/
def isSuccessResult : TransportResult → Bool
  | TransportResult.transportError _ => false
  | TransportResult.response statusCode => decide (200 ≤ statusCode ∧ statusCode < 300)

/-- The fields of `ProxyServer` that `RoundTrip` touches (proxy.go lines
295-300): the key manager and the global stats. -/
structure ProxyServerState where
  keyManager : KeyManager
  stats : GlobalProxyStats
deriving DecidableEq

/-- The credential lookup at the start of `customTransport.RoundTrip`
(proxy.go lines 423-441): the `key` query parameter (`""` when absent) is
matched against each key's secret, first match wins. -/
def lookupKeyIdx (keys : List APIKeyInfo) (requestKeyStr : String) : Option Nat :=
  if requestKeyStr = "" then none
  else keys.findIdx? (fun ki => ki.key == requestKeyStr)

/-- The global-statistics section of `customTransport.RoundTrip` (proxy.go
lines 449-501): count the attempt, accumulate latency, recompute the overall
mean, then classify the outcome into the success/failure counters and the
recent-errors list. -/
def updateGlobalStats (stats : GlobalProxyStats) (apiKeyID path : String)
    (latencyMicros : Nat) (result : TransportResult) : GlobalProxyStats :=
  let totalRequests := (stats.totalRequests + 1) % U64
  let totalLatencyForAverage := (stats.totalLatencyForAverage + latencyMicros) % U64
  let overallAverage :=
    if totalRequests > 0 then totalLatencyForAverage / totalRequests
    else stats.overallAverageLatencyMicroseconds
  let stats0 := { stats with
    totalRequests := totalRequests
    totalLatencyForAverage := totalLatencyForAverage
    overallAverageLatencyMicroseconds := overallAverage }
  match result with
  | TransportResult.transportError msg =>
      { stats0 with
        totalFailures := (stats0.totalFailures + 1) % U64
        recentErrors := capRecent
          ({ sourceID := "ProxyTransport"
             model := extractModelFromPath path
             apiKeyID := apiKeyID
             errorType := "TransportError"
             message := msg } :: stats0.recentErrors) }
  | TransportResult.response statusCode =>
      if 200 ≤ statusCode ∧ statusCode < 300 then
        { stats0 with totalSuccesses := (stats0.totalSuccesses + 1) % U64 }
      else
        { stats0 with
          totalFailures := (stats0.totalFailures + 1) % U64
          recentErrors := capRecent
            ({ sourceID := "ProxyTransport"
               model := extractModelFromPath path
               apiKeyID := apiKeyID
               errorType := "HTTP " ++ toString statusCode
               message := statusText statusCode } :: stats0.recentErrors) }

/-- `customTransport.RoundTrip` (proxy.go lines 416-511). Inputs: the `key`
query parameter of the outbound request (`""` when absent), the request
path, the measured latency in microseconds, and the transport outcome.
The atomic `ActiveConnections` counter (incremented then restored by a
deferred decrement) is outside the model. -/
def RoundTrip (ps : ProxyServerState) (requestKeyStr path : String)
    (latencyMicros : Nat) (result : TransportResult) : ProxyServerState :=
  let currentKeyIdx := lookupKeyIdx ps.keyManager.keys requestKeyStr
  let apiKeyID := match currentKeyIdx with
    | some i => (ps.keyManager.keys.getD i default).name
    | none => "N/A"
  let stats1 := updateGlobalStats ps.stats apiKeyID path latencyMicros result
  match currentKeyIdx with
  | none => { ps with stats := stats1 }
  | some i =>
      { keyManager := { ps.keyManager with
          keys := ps.keyManager.keys.set i
            (RecordRequest (ps.keyManager.keys.getD i default)
              (isSuccessResult result) latencyMicros) }
        stats := stats1 }

/-- Folding `RecordRequest` over a list of (success, latency) outcomes. -/
def recordAll (ki : APIKeyInfo) (outcomes : List (Bool × Nat)) : APIKeyInfo :=
  outcomes.foldl (fun k o => RecordRequest k o.1 o.2) ki

/-- Folding the prepend-then-truncate step over a list of error events,
oldest first (the fold order of successive recordings). -/
def recordErrors (events : List ErrorDetail) (init : List ErrorDetail) :
    List ErrorDetail :=
  events.foldl (fun acc e => capRecent (e :: acc)) init

/-! ## Helper lemmas -/

theorem getD_mem_of_lt (l : List APIKeyInfo) (n : Nat) (h : n < l.length) :
    l.getD n default ∈ l := by
  rw [List.getD_eq_getElem?_getD, List.getElem?_eq_getElem h, Option.getD_some]
  exact List.getElem_mem h

theorem getD_eq_getElem_of_lt (l : List APIKeyInfo) (n : Nat) (h : n < l.length) :
    l.getD n default = l[n] := by
  rw [List.getD_eq_getElem?_getD, List.getElem?_eq_getElem h, Option.getD_some]

/-! ## C10 -/

/-- C10: every credential built by `NewKeyManager` whose secret is at most 5
characters long has a display name equal to the full secret verbatim; only
secrets longer than 5 characters get the suffix-masked `"..."` plus last-5
form. -/
theorem c10_short_secrets_unmasked (fileContent : Option String) (km : KeyManager)
    (hok : NewKeyManager fileContent = Except.ok km) :
    ∀ ki ∈ km.keys,
      (ki.key.length ≤ 5 → ki.name = ki.key) ∧
      (ki.key.length > 5 →
        ki.name = "..." ++ (ki.key.data.drop (ki.key.length - 5)).asString) := by
  have hkeys : ∃ raw : List String, km.keys = raw.map newAPIKeyInfo := by
    cases fileContent with
    | none => simp [NewKeyManager, readRawAPIKeys] at hok
    | some content =>
        by_cases h : (keyLines content).length = 0
        · simp [NewKeyManager, readRawAPIKeys, h] at hok
        · refine ⟨keyLines content, ?_⟩
          simp only [NewKeyManager, readRawAPIKeys, if_neg h, Except.ok.injEq] at hok
          rw [← hok]
  intro ki hki
  obtain ⟨raw, hraw⟩ := hkeys
  rw [hraw] at hki
  obtain ⟨k, _, rfl⟩ := List.mem_map.mp hki
  constructor
  · intro hle
    have hle' : k.length ≤ 5 := hle
    show maskKeyName k = k
    unfold maskKeyName
    rw [if_neg (Nat.not_lt.mpr hle')]
  · intro hgt
    have hgt' : 5 < k.length := hgt
    show maskKeyName k = "..." ++ (k.data.drop (k.length - 5)).asString
    unfold maskKeyName
    rw [if_pos hgt']

/-- Witness for C10 at a concrete key file with one short and one long secret. -/
theorem c10_short_secrets_unmasked_witness :
    (newAPIKeyInfo "abc").name = "abc" ∧ (newAPIKeyInfo "abcdefgh").name = "...defgh" := by
  have h := c10_short_secrets_unmasked (some "abc\nabcdefgh")
    ⟨[newAPIKeyInfo "abc", newAPIKeyInfo "abcdefgh"], 0⟩ rfl
  have h1 := (h (newAPIKeyInfo "abc") (by simp)).1 (by decide)
  have h2 := (h (newAPIKeyInfo "abcdefgh") (by simp)).2 (by decide)
  exact ⟨h1, h2⟩

/-! ## C6 -/

/-- A credential with nonzero cumulative latency, used to exhibit the field
`GetKeyInfoSnapshot` fails to copy. -/
def keyC6 : APIKeyInfo :=
  { name := "...key01"
    key := "secretkey01"
    enabled := true
    requests := 1
    successes := 1
    failures := 0
    totalLatencyMicroseconds := 7
    averageLatencyMicroseconds := 7
    status := "Active" }

/-- C6 counterexample: the claim says the snapshot copies the cumulative
latency counter, but `GetKeyInfoSnapshot` omits `TotalLatencyMicroseconds`
from the copied struct, so the copy holds `0` where the credential holds `7`. -/
theorem c6_snapshot_counterexample :
    keyC6.totalLatencyMicroseconds = 7 ∧
    ((GetKeyInfoSnapshot ⟨[keyC6], 0⟩).getD 0 default).totalLatencyMicroseconds = 0 := by
  decide

/-- C6 amended: `GetKeyInfoSnapshot` returns, in pool order, a value-copy of
every credential's display identifier, secret value, enabled flag, attempt,
success and failure counters, average latency and status label — but not the
cumulative latency, which is left `0` in the copy. -/
theorem c6_snapshot_amended (km : KeyManager) (i : Nat) (hi : i < km.keys.length) :
    (GetKeyInfoSnapshot km).length = km.keys.length ∧
    ((GetKeyInfoSnapshot km).getD i default).name = (km.keys.getD i default).name ∧
    ((GetKeyInfoSnapshot km).getD i default).key = (km.keys.getD i default).key ∧
    ((GetKeyInfoSnapshot km).getD i default).enabled = (km.keys.getD i default).enabled ∧
    ((GetKeyInfoSnapshot km).getD i default).requests = (km.keys.getD i default).requests ∧
    ((GetKeyInfoSnapshot km).getD i default).successes = (km.keys.getD i default).successes ∧
    ((GetKeyInfoSnapshot km).getD i default).failures = (km.keys.getD i default).failures ∧
    ((GetKeyInfoSnapshot km).getD i default).averageLatencyMicroseconds
      = (km.keys.getD i default).averageLatencyMicroseconds ∧
    ((GetKeyInfoSnapshot km).getD i default).status = (km.keys.getD i default).status ∧
    ((GetKeyInfoSnapshot km).getD i default).totalLatencyMicroseconds = 0 := by
  have hlen : (GetKeyInfoSnapshot km).length = km.keys.length := by
    simp [GetKeyInfoSnapshot]
  have hi' : i < (GetKeyInfoSnapshot km).length := by rw [hlen]; exact hi
  have hsnap : (GetKeyInfoSnapshot km).getD i default
      = (fun keyInfo : APIKeyInfo =>
          ({ name := keyInfo.name
             key := keyInfo.key
             enabled := keyInfo.enabled
             requests := keyInfo.requests
             successes := keyInfo.successes
             failures := keyInfo.failures
             totalLatencyMicroseconds := 0
             averageLatencyMicroseconds := keyInfo.averageLatencyMicroseconds
             status := keyInfo.status } : APIKeyInfo)) (km.keys.getD i default) := by
    rw [getD_eq_getElem_of_lt _ _ hi', getD_eq_getElem_of_lt _ _ hi]
    simp [GetKeyInfoSnapshot]
  rw [hsnap]
  exact ⟨hlen, rfl, rfl, rfl, rfl, rfl, rfl, rfl, rfl, rfl⟩

/-- Witness for C6 (amended) on a concrete one-credential pool. -/
theorem c6_snapshot_amended_witness :
    ((GetKeyInfoSnapshot ⟨[keyC6], 0⟩).getD 0 default).requests = keyC6.requests ∧
    ((GetKeyInfoSnapshot ⟨[keyC6], 0⟩).getD 0 default).totalLatencyMicroseconds = 0 := by
  have h := c6_snapshot_amended ⟨[keyC6], 0⟩ 0 (by decide)
  exact ⟨h.2.2.2.2.1, h.2.2.2.2.2.2.2.2.2⟩

/-! ## C3 -/

/-- C3: when the pool is empty or every credential is disabled, `GetKey`
returns the `none` sentinel and the manager — in particular the rotation
cursor — is exactly what it was before the call. -/
theorem c3_exhaustion_leaves_cursor (km : KeyManager)
    (h : km.keys = [] ∨ ∀ ki ∈ km.keys, ki.enabled = false) :
    GetKey km = (none, km) ∧ (GetKey km).2.currentKeyIdx = km.currentKeyIdx := by
  have hmain : GetKey km = (none, km) := by
    rcases h with h | h
    · simp [GetKey, h]
    · unfold GetKey
      by_cases h0 : km.keys.length = 0
      · rw [if_pos h0]
      · rw [if_neg h0]
        have hfind : (List.range km.keys.length).find? (fun i =>
            (km.keys.getD ((km.currentKeyIdx + i) % km.keys.length) default).enabled)
            = none := by
          apply List.find?_eq_none.mpr
          intro i _
          have hlt : (km.currentKeyIdx + i) % km.keys.length < km.keys.length :=
            Nat.mod_lt _ (Nat.pos_of_ne_zero h0)
          have hdis := h _ (getD_mem_of_lt _ _ hlt)
          simp only [hdis, Bool.false_eq_true, not_false_eq_true]
        rw [hfind]
  exact ⟨hmain, by rw [hmain]⟩

/-- Witness for C3: a pool whose only credential is disabled, with the cursor
at a nonzero position. -/
theorem c3_exhaustion_witness :
    GetKey ⟨[setStatusFields (newAPIKeyInfo "k1") false], 3⟩
      = (none, ⟨[setStatusFields (newAPIKeyInfo "k1") false], 3⟩) :=
  (c3_exhaustion_leaves_cursor ⟨[setStatusFields (newAPIKeyInfo "k1") false], 3⟩
    (Or.inr (by decide))).1

/-! ## C9 -/

/-- C9: `NewKeyManager` fails exactly when the file cannot be read (`none`)
or no key line survives the trim/blank/comment filtering of `keyLines`; on
success every surviving line becomes one credential, initially enabled, in
file order, with the cursor at 0. -/
theorem c9_key_file_parsing :
    (∃ e, NewKeyManager none = Except.error e) ∧
    (∀ content : String,
      (∃ e, NewKeyManager (some content) = Except.error e) ↔ keyLines content = []) ∧
    (∀ (content : String) (km : KeyManager),
      NewKeyManager (some content) = Except.ok km →
      km.keys = (keyLines content).map newAPIKeyInfo ∧
      km.currentKeyIdx = 0 ∧
      ∀ ki ∈ km.keys, ki.enabled = true) := by
  refine ⟨⟨"failed to read keys file", rfl⟩, ?_, ?_⟩
  · intro content
    constructor
    · rintro ⟨e, he⟩
      by_cases h : keyLines content = []
      · exact h
      · exfalso
        simp [NewKeyManager, readRawAPIKeys, h] at he
    · intro h
      refine ⟨"no API keys found", ?_⟩
      simp [NewKeyManager, readRawAPIKeys, h]
  · intro content km hok
    by_cases h : (keyLines content).length = 0
    · simp [NewKeyManager, readRawAPIKeys, h] at hok
    · simp only [NewKeyManager, readRawAPIKeys, if_neg h, Except.ok.injEq] at hok
      rw [← hok]
      refine ⟨rfl, rfl, ?_⟩
      intro ki hki
      obtain ⟨k, _, rfl⟩ := List.mem_map.mp hki
      rfl

/-- Witness for C9: a concrete file whose comment line and blank line are
discarded and whose remaining line is trimmed. -/
theorem c9_key_file_parsing_witness :
    (⟨[newAPIKeyInfo "k1"], 0⟩ : KeyManager).keys
      = (keyLines "# header\n  k1  \n").map newAPIKeyInfo :=
  (c9_key_file_parsing.2.2 "# header\n  k1  \n" ⟨[newAPIKeyInfo "k1"], 0⟩ rfl).1

/-! ## C5 -/

theorem take_append_take {α : Type} (n : Nat) (a b : List α) :
    (a ++ b.take n).take n = (a ++ b).take n := by
  rw [List.take_append_eq_append_take, List.take_append_eq_append_take, List.take_take,
    Nat.min_eq_left (Nat.sub_le n a.length)]

theorem recordErrors_eq_take (events : List ErrorDetail) :
    ∀ init : List ErrorDetail, init.length ≤ MaxRecentErrors →
    recordErrors events init = (events.reverse ++ init).take MaxRecentErrors := by
  induction events with
  | nil =>
      intro init hinit
      simp only [recordErrors, List.foldl_nil, List.reverse_nil, List.nil_append]
      rw [List.take_of_length_le hinit]
  | cons e es ih =>
      intro init hinit
      have hstep : (capRecent (e :: init)).length ≤ MaxRecentErrors := by
        unfold capRecent
        split
        · simp
        · rename_i hle
          simp only [MaxRecentErrors] at hle ⊢
          omega
      have hfold : recordErrors (e :: es) init = recordErrors es (capRecent (e :: init)) := rfl
      rw [hfold, ih _ hstep]
      unfold capRecent
      split
      · rw [take_append_take]
        simp [List.append_assoc]
      · simp [List.append_assoc]

/-- C5: after recording K > capacity error events into an initially empty
list with the prepend-then-truncate step, the list is exactly the newest
`MaxRecentErrors` events, newest first, so it has exactly `MaxRecentErrors`
entries and the oldest `K - MaxRecentErrors` events (all earlier positions)
are absent; moreover one step never grows a within-capacity list past the
capacity. -/
theorem c5_error_ring_bound (events : List ErrorDetail)
    (hK : events.length > MaxRecentErrors) :
    recordErrors events [] = events.reverse.take MaxRecentErrors ∧
    (recordErrors events []).length = MaxRecentErrors ∧
    ∀ (l : List ErrorDetail) (e : ErrorDetail), l.length ≤ MaxRecentErrors →
      (capRecent (e :: l)).length ≤ MaxRecentErrors := by
  have h1 : recordErrors events [] = events.reverse.take MaxRecentErrors := by
    rw [recordErrors_eq_take events [] (by simp), List.append_nil]
  refine ⟨h1, ?_, ?_⟩
  · rw [h1, List.length_take, List.length_reverse]
    simp only [MaxRecentErrors] at hK ⊢
    omega
  · intro l e hl
    unfold capRecent
    split
    · simp
    · rename_i hle
      simp only [MaxRecentErrors] at hle ⊢
      omega

/-- One of eleven distinct error events used in the C5 witness. -/
def evC5 (n : Nat) : ErrorDetail :=
  { sourceID := "ProxyTransport"
    model := "gemini-pro"
    apiKeyID := "...key01"
    errorType := "HTTP 500"
    message := toString n }

/-- Witness for C5 at eleven concrete events against capacity ten. -/
theorem c5_error_ring_bound_witness :
    recordErrors ((List.range 11).map evC5) []
      = ((List.range 11).map evC5).reverse.take MaxRecentErrors ∧
    (recordErrors ((List.range 11).map evC5) []).length = MaxRecentErrors := by
  have h := c5_error_ring_bound ((List.range 11).map evC5) (by decide)
  exact ⟨h.1, h.2.1⟩

/-! ## C7 -/

theorem setKeyStatusList_eq_none (s : String) (b : Bool) :
    ∀ keys : List APIKeyInfo, (∀ ki ∈ keys, ki.key ≠ s) →
    setKeyStatusList keys s b = none := by
  intro keys
  induction keys with
  | nil => intro _; rfl
  | cons ki rest ih =>
      intro h
      unfold setKeyStatusList
      rw [if_neg (h ki (List.mem_cons_self ki rest))]
      rw [ih (fun k hk => h k (List.mem_cons_of_mem ki hk))]
      rfl

theorem toggleKeyStatusList_eq_none (s : String) :
    ∀ keys : List APIKeyInfo, (∀ ki ∈ keys, ki.key ≠ s) →
    toggleKeyStatusList keys s = none := by
  intro keys
  induction keys with
  | nil => intro _; rfl
  | cons ki rest ih =>
      intro h
      unfold toggleKeyStatusList
      rw [if_neg (h ki (List.mem_cons_self ki rest))]
      rw [ih (fun k hk => h k (List.mem_cons_of_mem ki hk))]
      rfl

theorem setKeyStatusList_eq_some (s : String) (b : Bool) :
    ∀ (keys : List APIKeyInfo) (i : Nat), i < keys.length →
    (keys.getD i default).key = s →
    (∀ j, j < i → (keys.getD j default).key ≠ s) →
    setKeyStatusList keys s b
      = some (keys.set i (setStatusFields (keys.getD i default) b)) := by
  intro keys
  induction keys with
  | nil => intro i hi; simp at hi
  | cons ki rest ih =>
      intro i hi hkey hbefore
      cases i with
      | zero =>
          unfold setKeyStatusList
          have hk : ki.key = s := hkey
          rw [if_pos hk]
          rfl
      | succ i =>
          unfold setKeyStatusList
          have hne : ki.key ≠ s := hbefore 0 (Nat.succ_pos i)
          rw [if_neg hne]
          rw [ih i (Nat.lt_of_succ_lt_succ hi) hkey
            (fun j hj => hbefore (j + 1) (Nat.succ_lt_succ hj))]
          rfl

theorem toggleKeyStatusList_eq_setKeyStatusList (s : String) :
    ∀ (keys : List APIKeyInfo) (i : Nat), i < keys.length →
    (keys.getD i default).key = s →
    (∀ j, j < i → (keys.getD j default).key ≠ s) →
    toggleKeyStatusList keys s
      = setKeyStatusList keys s (!(keys.getD i default).enabled) := by
  intro keys
  induction keys with
  | nil => intro i hi; simp at hi
  | cons ki rest ih =>
      intro i hi hkey hbefore
      cases i with
      | zero =>
          unfold toggleKeyStatusList setKeyStatusList
          have hk : ki.key = s := hkey
          rw [if_pos hk, if_pos hk]
          rfl
      | succ i =>
          unfold toggleKeyStatusList setKeyStatusList
          have hne : ki.key ≠ s := hbefore 0 (Nat.succ_pos i)
          rw [if_neg hne, if_neg hne]
          rw [ih i (Nat.lt_of_succ_lt_succ hi) hkey
            (fun j hj => hbefore (j + 1) (Nat.succ_lt_succ hj))]
          rfl

/-- C7: `SetKeyStatus` matches on the credential's actual secret value; when
the first match sits at pool position `i` it returns success with exactly
that credential's enabled flag set to `b` (and the status label mirroring
it), and `ToggleKeyStatus` equals `SetKeyStatus` called with the negation of
the matched credential's current flag; both return a not-found error exactly
when no credential's secret equals the identifier, changing nothing. -/
theorem c7_set_and_toggle_status :
    (∀ (km : KeyManager) (s : String) (b : Bool), (∀ ki ∈ km.keys, ki.key ≠ s) →
      (∃ e, SetKeyStatus km s b = Except.error e) ∧
      (∃ e, ToggleKeyStatus km s = Except.error e)) ∧
    (∀ (km : KeyManager) (s : String) (b : Bool) (i : Nat), i < km.keys.length →
      (km.keys.getD i default).key = s →
      (∀ j, j < i → (km.keys.getD j default).key ≠ s) →
      SetKeyStatus km s b = Except.ok { km with
        keys := km.keys.set i (setStatusFields (km.keys.getD i default) b) } ∧
      (setStatusFields (km.keys.getD i default) b).enabled = b ∧
      ToggleKeyStatus km s
        = SetKeyStatus km s (!(km.keys.getD i default).enabled)) := by
  constructor
  · intro km s b h
    constructor
    · refine ⟨"key '" ++ keyNotFoundDisplay s ++ "' not found for setting status", ?_⟩
      unfold SetKeyStatus
      rw [setKeyStatusList_eq_none s b km.keys h]
    · refine ⟨"key '" ++ keyNotFoundDisplay s ++ "' not found for toggling status", ?_⟩
      unfold ToggleKeyStatus
      rw [toggleKeyStatusList_eq_none s km.keys h]
  · intro km s b i hi hkey hbefore
    refine ⟨?_, rfl, ?_⟩
    · unfold SetKeyStatus
      rw [setKeyStatusList_eq_some s b km.keys i hi hkey hbefore]
    · unfold ToggleKeyStatus SetKeyStatus
      rw [toggleKeyStatusList_eq_setKeyStatusList s km.keys i hi hkey hbefore,
        setKeyStatusList_eq_some s _ km.keys i hi hkey hbefore]

/-- Witness for C7 on a two-credential pool: setting and toggling the second
credential by its secret, plus the not-found failure for an unknown secret. -/
theorem c7_set_and_toggle_status_witness :
    SetKeyStatus ⟨[newAPIKeyInfo "aaaaaa", newAPIKeyInfo "bbbbbb"], 0⟩ "bbbbbb" false
      = Except.ok ⟨[newAPIKeyInfo "aaaaaa",
          setStatusFields (newAPIKeyInfo "bbbbbb") false], 0⟩ ∧
    ToggleKeyStatus ⟨[newAPIKeyInfo "aaaaaa", newAPIKeyInfo "bbbbbb"], 0⟩ "bbbbbb"
      = SetKeyStatus ⟨[newAPIKeyInfo "aaaaaa", newAPIKeyInfo "bbbbbb"], 0⟩ "bbbbbb" false := by
  have h := (c7_set_and_toggle_status.2
    ⟨[newAPIKeyInfo "aaaaaa", newAPIKeyInfo "bbbbbb"], 0⟩ "bbbbbb" false 1
    (by decide) (by decide) (by decide))
  exact ⟨h.1, h.2.2⟩

/-! ## C2 -/

theorem mod_cursor_shift (c k m : Nat) :
    ((c % m + 1) % m + k) % m = (c + (k + 1)) % m := by
  rw [Nat.mod_add_mod, Nat.add_assoc, Nat.mod_add_mod, Nat.add_comm 1 k]

theorem find?_range_zero (p : Nat → Bool) (n : Nat) (hn : 0 < n) (hp : p 0 = true) :
    (List.range n).find? p = some 0 := by
  obtain ⟨m, rfl⟩ : ∃ m, n = m + 1 := ⟨n - 1, by omega⟩
  rw [List.range_succ_eq_map]
  exact List.find?_cons_of_pos _ hp

theorem getKey_all_enabled_step (km : KeyManager) (hNE : km.keys.length ≠ 0)
    (hAll : ∀ ki ∈ km.keys, ki.enabled = true) :
    GetKey km = (some (km.currentKeyIdx % km.keys.length),
      { km with currentKeyIdx :=
          (km.currentKeyIdx % km.keys.length + 1) % km.keys.length }) := by
  unfold GetKey
  rw [if_neg hNE]
  have h0 : (km.keys.getD ((km.currentKeyIdx + 0) % km.keys.length) default).enabled = true :=
    hAll _ (getD_mem_of_lt _ _ (Nat.mod_lt _ (Nat.pos_of_ne_zero hNE)))
  have hfind : (List.range km.keys.length).find? (fun i =>
      (km.keys.getD ((km.currentKeyIdx + i) % km.keys.length) default).enabled) = some 0 :=
    find?_range_zero _ _ (Nat.pos_of_ne_zero hNE) h0
  rw [hfind]
  simp only [Nat.add_zero]

theorem getKeySeq_all_enabled (n : Nat) :
    ∀ km : KeyManager, km.keys.length ≠ 0 →
    (∀ ki ∈ km.keys, ki.enabled = true) →
    getKeySeq km n = (List.range n).map
      (fun k => some ((km.currentKeyIdx + k) % km.keys.length)) := by
  induction n with
  | zero => intro km _ _; rfl
  | succ n ih =>
      intro km hNE hAll
      have hstep := getKey_all_enabled_step km hNE hAll
      simp only [getKeySeq, hstep]
      rw [ih { km with currentKeyIdx :=
          (km.currentKeyIdx % km.keys.length + 1) % km.keys.length }
        (by exact hNE) (by exact hAll)]
      rw [List.range_succ_eq_map, List.map_cons, List.map_map]
      refine congrArg₂ List.cons ?_ ?_
      · rw [Nat.add_zero]
      · apply List.map_congr_left
        intro k _
        show some (((km.currentKeyIdx % km.keys.length + 1) % km.keys.length + k)
            % km.keys.length)
          = some ((km.currentKeyIdx + Nat.succ k) % km.keys.length)
        rw [mod_cursor_shift]

/-- C2: with every credential enabled and no concurrent mutation, the pool
length `N` consecutive `GetKey` calls return exactly the indices
`cursor, cursor+1, ..., cursor+N-1` (mod `N`) in pool order — each credential
exactly once — and every successful selection leaves the cursor just past
the returned credential's position. -/
theorem c2_round_robin_fairness (km : KeyManager) (hpos : 0 < km.keys.length)
    (hAll : ∀ ki ∈ km.keys, ki.enabled = true) :
    getKeySeq km km.keys.length = (List.range km.keys.length).map
      (fun k => some ((km.currentKeyIdx + k) % km.keys.length)) ∧
    (getKeySeq km km.keys.length).Nodup ∧
    (∀ j, j < km.keys.length → some j ∈ getKeySeq km km.keys.length) ∧
    (∀ (km1 km2 : KeyManager) (idx : Nat), GetKey km1 = (some idx, km2) →
      km2.currentKeyIdx = (idx + 1) % km1.keys.length) := by
  have hNE : km.keys.length ≠ 0 := by omega
  have h1 := getKeySeq_all_enabled km.keys.length km hNE hAll
  refine ⟨h1, ?_, ?_, ?_⟩
  · rw [h1]
    apply List.Nodup.map_on ?_ (List.nodup_range _)
    intro x hx y hy hxy
    simp only [Option.some.injEq] at hxy
    have hx' : x < km.keys.length := List.mem_range.mp hx
    have hy' : y < km.keys.length := List.mem_range.mp hy
    have hmod : x % km.keys.length = y % km.keys.length :=
      Nat.ModEq.add_left_cancel' km.currentKeyIdx hxy
    rwa [Nat.mod_eq_of_lt hx', Nat.mod_eq_of_lt hy'] at hmod
  · intro j hj
    rw [h1]
    have hc : km.currentKeyIdx % km.keys.length < km.keys.length :=
      Nat.mod_lt _ hpos
    have hval : (km.currentKeyIdx
        + ((j + (km.keys.length - km.currentKeyIdx % km.keys.length))
            % km.keys.length)) % km.keys.length = j := by
      rw [Nat.add_mod_mod, ← Nat.mod_add_mod]
      have harith : km.currentKeyIdx % km.keys.length
          + (j + (km.keys.length - km.currentKeyIdx % km.keys.length))
          = km.keys.length + j := by omega
      rw [harith, Nat.add_mod_left, Nat.mod_eq_of_lt hj]
    exact List.mem_map.mpr
      ⟨(j + (km.keys.length - km.currentKeyIdx % km.keys.length)) % km.keys.length,
       List.mem_range.mpr (Nat.mod_lt _ hpos), congrArg some hval⟩
  · intro km1 km2 idx h
    unfold GetKey at h
    by_cases h0 : km1.keys.length = 0
    · rw [if_pos h0] at h
      exact absurd (congrArg Prod.fst h) (by simp)
    · rw [if_neg h0] at h
      rcases hfind : (List.range km1.keys.length).find? (fun i =>
          (km1.keys.getD ((km1.currentKeyIdx + i) % km1.keys.length) default).enabled)
        with _ | i
      · rw [hfind] at h
        exact absurd (congrArg Prod.fst h) (by simp)
      · rw [hfind] at h
        simp only [Prod.mk.injEq, Option.some.injEq] at h
        obtain ⟨hidx, hkm⟩ := h
        rw [← hkm]
        show ((km1.currentKeyIdx + i) % km1.keys.length + 1) % km1.keys.length
          = (idx + 1) % km1.keys.length
        rw [hidx]

/-- Witness for C2: three enabled credentials, cursor at 1, three calls
select positions 1, 2, 0 — each exactly once. -/
theorem c2_round_robin_fairness_witness :
    getKeySeq ⟨[newAPIKeyInfo "aaaaaa", newAPIKeyInfo "bbbbbb", newAPIKeyInfo "cccccc"], 1⟩ 3
      = [some 1, some 2, some 0] ∧
    some 0 ∈ getKeySeq ⟨[newAPIKeyInfo "aaaaaa", newAPIKeyInfo "bbbbbb",
        newAPIKeyInfo "cccccc"], 1⟩ 3 := by
  have h := c2_round_robin_fairness
    ⟨[newAPIKeyInfo "aaaaaa", newAPIKeyInfo "bbbbbb", newAPIKeyInfo "cccccc"], 1⟩
    (by decide) (by decide)
  exact ⟨h.1.trans (by decide), h.2.2.1 0 (by decide)⟩

/-! ## C8 -/

theorem roundTrip_stats_eq (ps : ProxyServerState) (rk p : String) (lat : Nat)
    (result : TransportResult) :
    (RoundTrip ps rk p lat result).stats
      = updateGlobalStats ps.stats
          (match lookupKeyIdx ps.keyManager.keys rk with
            | some i => (ps.keyManager.keys.getD i default).name
            | none => "N/A") p lat result := by
  unfold RoundTrip
  cases h : lookupKeyIdx ps.keyManager.keys rk <;> simp [h]

theorem updateGlobalStats_base (stats : GlobalProxyStats) (id p : String)
    (lat : Nat) (result : TransportResult) :
    (updateGlobalStats stats id p lat result).totalRequests
      = (stats.totalRequests + 1) % U64 ∧
    (updateGlobalStats stats id p lat result).totalLatencyForAverage
      = (stats.totalLatencyForAverage + lat) % U64 ∧
    (0 < (stats.totalRequests + 1) % U64 →
      (updateGlobalStats stats id p lat result).overallAverageLatencyMicroseconds
        = ((stats.totalLatencyForAverage + lat) % U64)
          / ((stats.totalRequests + 1) % U64)) := by
  unfold updateGlobalStats
  rcases result with msg | code
  · refine ⟨rfl, rfl, fun h => ?_⟩
    show (if (stats.totalRequests + 1) % U64 > 0
        then ((stats.totalLatencyForAverage + lat) % U64) / ((stats.totalRequests + 1) % U64)
        else stats.overallAverageLatencyMicroseconds) = _
    rw [if_pos h]
  · refine ⟨?_, ?_, fun h => ?_⟩
    · split
      · rfl
      · split <;> rfl
    · split
      · rfl
      · split <;> rfl
    · split
      · show (if (stats.totalRequests + 1) % U64 > 0
            then ((stats.totalLatencyForAverage + lat) % U64) / ((stats.totalRequests + 1) % U64)
            else stats.overallAverageLatencyMicroseconds) = _
        rw [if_pos h]
      · split
        all_goals
          show (if (stats.totalRequests + 1) % U64 > 0
              then ((stats.totalLatencyForAverage + lat) % U64) / ((stats.totalRequests + 1) % U64)
              else stats.overallAverageLatencyMicroseconds) = _
          rw [if_pos h]

theorem RecordRequest_fields (ki : APIKeyInfo) (success : Bool) (lat : Nat)
    (hreq : ki.requests + 1 < U64) (hlat : ki.totalLatencyMicroseconds + lat < U64) :
    (RecordRequest ki success lat).requests = ki.requests + 1 ∧
    (RecordRequest ki success lat).totalLatencyMicroseconds
      = ki.totalLatencyMicroseconds + lat ∧
    (RecordRequest ki success lat).averageLatencyMicroseconds
      = (ki.totalLatencyMicroseconds + lat) / (ki.requests + 1) := by
  unfold RecordRequest
  refine ⟨?_, ?_, ?_⟩
  · show (ki.requests + 1) % U64 = ki.requests + 1
    exact Nat.mod_eq_of_lt hreq
  · show (ki.totalLatencyMicroseconds + lat) % U64 = ki.totalLatencyMicroseconds + lat
    exact Nat.mod_eq_of_lt hlat
  · show (if (ki.requests + 1) % U64 > 0
        then ((ki.totalLatencyMicroseconds + lat) % U64) / ((ki.requests + 1) % U64)
        else ki.averageLatencyMicroseconds) = _
    rw [Nat.mod_eq_of_lt hreq, Nat.mod_eq_of_lt hlat,
      if_pos (Nat.succ_pos ki.requests)]

theorem recordAll_mean_aux (outcomes : List (Bool × Nat)) :
    ∀ ki : APIKeyInfo,
    ki.requests + outcomes.length < U64 →
    ki.totalLatencyMicroseconds + (outcomes.map Prod.snd).sum < U64 →
    (recordAll ki outcomes).requests = ki.requests + outcomes.length ∧
    (recordAll ki outcomes).totalLatencyMicroseconds
      = ki.totalLatencyMicroseconds + (outcomes.map Prod.snd).sum ∧
    (outcomes ≠ [] →
      (recordAll ki outcomes).averageLatencyMicroseconds
        = (ki.totalLatencyMicroseconds + (outcomes.map Prod.snd).sum)
          / (ki.requests + outcomes.length)) := by
  induction outcomes with
  | nil =>
      intro ki h1 h2
      refine ⟨by simp [recordAll], by simp [recordAll], by simp⟩
  | cons o os ih =>
      intro ki h1 h2
      simp only [List.length_cons, List.map_cons, List.sum_cons] at h1 h2 ⊢
      have hreq : ki.requests + 1 < U64 := by omega
      have hlat : ki.totalLatencyMicroseconds + o.2 < U64 := by omega
      obtain ⟨hr, ht, ha⟩ := RecordRequest_fields ki o.1 o.2 hreq hlat
      have hfold : recordAll ki (o :: os) = recordAll (RecordRequest ki o.1 o.2) os := rfl
      rw [hfold]
      obtain ⟨ihr, iht, iha⟩ := ih (RecordRequest ki o.1 o.2)
        (by rw [hr]; omega) (by rw [ht]; omega)
      refine ⟨by rw [ihr, hr]; omega, by rw [iht, ht]; omega, fun _ => ?_⟩
      cases os with
      | nil =>
          show (RecordRequest ki o.1 o.2).averageLatencyMicroseconds = _
          rw [ha]
          simp
      | cons q qs =>
          rw [iha (by simp), hr, ht]
          congr 1
          · omega
          · omega

/-- C8: the stored mean latency is recomputed on every event as the integer
quotient of the cumulative microsecond latency by the attempt count —
per credential in `RecordRequest` and globally in the `RoundTrip` statistics
update — so after any sequence of at least one recorded outcome against a
fresh credential the stored mean equals the arithmetic mean (integer
division, hence within one microsecond of the rational mean) of the injected
latencies, provided the `uint64` accumulators do not wrap. -/
theorem c8_latency_mean (outcomes : List (Bool × Nat)) (ki : APIKeyInfo)
    (hreq0 : ki.requests = 0) (hlat0 : ki.totalLatencyMicroseconds = 0)
    (hne : outcomes ≠ []) (hlen : outcomes.length < U64)
    (hsum : (outcomes.map Prod.snd).sum < U64) :
    (recordAll ki outcomes).requests = outcomes.length ∧
    (recordAll ki outcomes).totalLatencyMicroseconds = (outcomes.map Prod.snd).sum ∧
    (recordAll ki outcomes).averageLatencyMicroseconds
      = (outcomes.map Prod.snd).sum / outcomes.length ∧
    (∀ (k : APIKeyInfo) (success : Bool) (lat : Nat),
      k.requests + 1 < U64 → k.totalLatencyMicroseconds + lat < U64 →
      (RecordRequest k success lat).averageLatencyMicroseconds
        = (RecordRequest k success lat).totalLatencyMicroseconds
          / (RecordRequest k success lat).requests) ∧
    (∀ (ps : ProxyServerState) (rk p : String) (lat : Nat)
        (result : TransportResult),
      ps.stats.totalRequests + 1 < U64 →
      (RoundTrip ps rk p lat result).stats.totalRequests
        = (ps.stats.totalRequests + 1) % U64 ∧
      (RoundTrip ps rk p lat result).stats.totalLatencyForAverage
        = (ps.stats.totalLatencyForAverage + lat) % U64 ∧
      (RoundTrip ps rk p lat result).stats.overallAverageLatencyMicroseconds
        = (RoundTrip ps rk p lat result).stats.totalLatencyForAverage
          / (RoundTrip ps rk p lat result).stats.totalRequests) := by
  obtain ⟨hr, ht, ha⟩ := recordAll_mean_aux outcomes ki
    (by rw [hreq0]; omega) (by rw [hlat0]; omega)
  refine ⟨by rw [hr, hreq0, Nat.zero_add], by rw [ht, hlat0, Nat.zero_add], ?_, ?_, ?_⟩
  · rw [ha hne, hreq0, hlat0, Nat.zero_add, Nat.zero_add]
  · intro k success lat hk hl
    obtain ⟨h1, h2, h3⟩ := RecordRequest_fields k success lat hk hl
    rw [h1, h2, h3]
  · intro ps rk p lat result hbound
    obtain ⟨h1, h2, h3⟩ := updateGlobalStats_base ps.stats
      (match lookupKeyIdx ps.keyManager.keys rk with
        | some i => (ps.keyManager.keys.getD i default).name
        | none => "N/A") p lat result
    have hpos : 0 < (ps.stats.totalRequests + 1) % U64 := by
      rw [Nat.mod_eq_of_lt hbound]
      omega
    rw [roundTrip_stats_eq, h1, h2, h3 hpos]
    exact ⟨rfl, rfl, rfl⟩

/-- Witness for C8: two outcomes with latencies 10 and 20 microseconds give
a stored mean of 15. -/
theorem c8_latency_mean_witness :
    (recordAll (newAPIKeyInfo "kkkkkk") [(true, 10), (false, 20)]).averageLatencyMicroseconds
      = 15 := by
  have h := c8_latency_mean [(true, 10), (false, 20)] (newAPIKeyInfo "kkkkkk")
    rfl rfl (by decide) (by decide) (by decide)
  exact h.2.2.1.trans (by decide)

/-! ## C4 -/

theorem capRecent_cons_head (e : ErrorDetail) (l : List ErrorDetail) :
    (capRecent (e :: l)).head? = some e := by
  unfold capRecent
  split
  · show ((e :: l).take MaxRecentErrors).head? = some e
    rfl
  · rfl

theorem updateGlobalStats_transportError_eq (stats : GlobalProxyStats)
    (id p : String) (lat : Nat) (msg : String) :
    updateGlobalStats stats id p lat (TransportResult.transportError msg)
      = { stats with
          totalRequests := (stats.totalRequests + 1) % U64
          totalLatencyForAverage := (stats.totalLatencyForAverage + lat) % U64
          overallAverageLatencyMicroseconds :=
            if (stats.totalRequests + 1) % U64 > 0
            then ((stats.totalLatencyForAverage + lat) % U64)
              / ((stats.totalRequests + 1) % U64)
            else stats.overallAverageLatencyMicroseconds
          totalFailures := (stats.totalFailures + 1) % U64
          recentErrors := capRecent
            ({ sourceID := "ProxyTransport"
               model := extractModelFromPath p
               apiKeyID := id
               errorType := "TransportError"
               message := msg } :: stats.recentErrors) } := rfl

theorem updateGlobalStats_response_eq (stats : GlobalProxyStats)
    (id p : String) (lat code : Nat) :
    updateGlobalStats stats id p lat (TransportResult.response code)
      = if 200 ≤ code ∧ code < 300 then
          { stats with
            totalRequests := (stats.totalRequests + 1) % U64
            totalLatencyForAverage := (stats.totalLatencyForAverage + lat) % U64
            overallAverageLatencyMicroseconds :=
              if (stats.totalRequests + 1) % U64 > 0
              then ((stats.totalLatencyForAverage + lat) % U64)
                / ((stats.totalRequests + 1) % U64)
              else stats.overallAverageLatencyMicroseconds
            totalSuccesses := (stats.totalSuccesses + 1) % U64 }
        else
          { stats with
            totalRequests := (stats.totalRequests + 1) % U64
            totalLatencyForAverage := (stats.totalLatencyForAverage + lat) % U64
            overallAverageLatencyMicroseconds :=
              if (stats.totalRequests + 1) % U64 > 0
              then ((stats.totalLatencyForAverage + lat) % U64)
                / ((stats.totalRequests + 1) % U64)
              else stats.overallAverageLatencyMicroseconds
            totalFailures := (stats.totalFailures + 1) % U64
            recentErrors := capRecent
              ({ sourceID := "ProxyTransport"
                 model := extractModelFromPath p
                 apiKeyID := id
                 errorType := "HTTP " ++ toString code
                 message := statusText code } :: stats.recentErrors) } := rfl

theorem roundTrip_keyManager_none (ps : ProxyServerState) (rk p : String)
    (lat : Nat) (result : TransportResult)
    (h : lookupKeyIdx ps.keyManager.keys rk = none) :
    (RoundTrip ps rk p lat result).keyManager = ps.keyManager := by
  unfold RoundTrip
  simp [h]

theorem roundTrip_keyManager_some (ps : ProxyServerState) (rk p : String)
    (lat : Nat) (result : TransportResult) (i : Nat)
    (h : lookupKeyIdx ps.keyManager.keys rk = some i) :
    (RoundTrip ps rk p lat result).keyManager.keys
      = ps.keyManager.keys.set i
          (RecordRequest (ps.keyManager.keys.getD i default)
            (isSuccessResult result) lat) := by
  unfold RoundTrip
  simp [h]

theorem lookupKeyIdx_lt (keys : List APIKeyInfo) (rk : String) (i : Nat)
    (h : lookupKeyIdx keys rk = some i) : i < keys.length := by
  unfold lookupKeyIdx at h
  by_cases he : rk = ""
  · rw [if_pos he] at h
    exact absurd h (by simp)
  · rw [if_neg he] at h
    obtain ⟨hlt, -⟩ := List.findIdx?_eq_some_iff_getElem.mp h
    exact hlt

theorem RecordRequest_counters (ki : APIKeyInfo) (success : Bool) (lat : Nat)
    (hreq : ki.requests + 1 < U64) (hS : ki.successes + 1 < U64)
    (hF : ki.failures + 1 < U64) :
    (RecordRequest ki success lat).requests = ki.requests + 1 ∧
    (success = true →
      (RecordRequest ki success lat).successes = ki.successes + 1 ∧
      (RecordRequest ki success lat).failures = ki.failures) ∧
    (success = false →
      (RecordRequest ki success lat).failures = ki.failures + 1 ∧
      (RecordRequest ki success lat).successes = ki.successes) := by
  cases success with
  | false =>
      refine ⟨?_, ?_, fun _ => ⟨?_, rfl⟩⟩
      · show (ki.requests + 1) % U64 = ki.requests + 1
        exact Nat.mod_eq_of_lt hreq
      · intro h
        exact absurd h (by simp)
      · show (ki.failures + 1) % U64 = ki.failures + 1
        exact Nat.mod_eq_of_lt hF
  | true =>
      refine ⟨?_, fun _ => ⟨?_, rfl⟩, ?_⟩
      · show (ki.requests + 1) % U64 = ki.requests + 1
        exact Nat.mod_eq_of_lt hreq
      · show (ki.successes + 1) % U64 = ki.successes + 1
        exact Nat.mod_eq_of_lt hS
      · intro h
        exact absurd h (by simp)

/-- C4: one `RoundTrip` classifies the outcome exactly as claimed — a
transport error increments the global failure count and prepends a
`"TransportError"` event; a `[200,300)` status increments the success count
and records no event; any other status increments the failure count and
prepends an event carrying `"HTTP "` plus the numeric code; when the `key`
query parameter resolves to a pool credential that credential's counters get
the identical classification via `RecordRequest`, and when it resolves to
nothing the key manager is untouched. -/
theorem c4_outcome_classification (ps : ProxyServerState) (rk path : String)
    (lat : Nat) (result : TransportResult)
    (hS : ps.stats.totalSuccesses + 1 < U64)
    (hF : ps.stats.totalFailures + 1 < U64)
    (hK : ∀ ki ∈ ps.keyManager.keys,
      ki.requests + 1 < U64 ∧ ki.successes + 1 < U64 ∧ ki.failures + 1 < U64) :
    (∀ msg, result = TransportResult.transportError msg →
      (RoundTrip ps rk path lat result).stats.totalFailures
        = ps.stats.totalFailures + 1 ∧
      (RoundTrip ps rk path lat result).stats.totalSuccesses
        = ps.stats.totalSuccesses ∧
      ((RoundTrip ps rk path lat result).stats.recentErrors.head?).map
        ErrorDetail.errorType = some "TransportError") ∧
    (∀ code, result = TransportResult.response code → 200 ≤ code → code < 300 →
      (RoundTrip ps rk path lat result).stats.totalSuccesses
        = ps.stats.totalSuccesses + 1 ∧
      (RoundTrip ps rk path lat result).stats.totalFailures
        = ps.stats.totalFailures ∧
      (RoundTrip ps rk path lat result).stats.recentErrors
        = ps.stats.recentErrors) ∧
    (∀ code, result = TransportResult.response code → ¬ (200 ≤ code ∧ code < 300) →
      (RoundTrip ps rk path lat result).stats.totalFailures
        = ps.stats.totalFailures + 1 ∧
      (RoundTrip ps rk path lat result).stats.totalSuccesses
        = ps.stats.totalSuccesses ∧
      ((RoundTrip ps rk path lat result).stats.recentErrors.head?).map
        ErrorDetail.errorType = some ("HTTP " ++ toString code)) ∧
    (lookupKeyIdx ps.keyManager.keys rk = none →
      (RoundTrip ps rk path lat result).keyManager = ps.keyManager) ∧
    (∀ i, lookupKeyIdx ps.keyManager.keys rk = some i →
      (RoundTrip ps rk path lat result).keyManager.keys
        = ps.keyManager.keys.set i
            (RecordRequest (ps.keyManager.keys.getD i default)
              (isSuccessResult result) lat) ∧
      (RecordRequest (ps.keyManager.keys.getD i default)
        (isSuccessResult result) lat).requests
        = (ps.keyManager.keys.getD i default).requests + 1 ∧
      (isSuccessResult result = true →
        (RecordRequest (ps.keyManager.keys.getD i default)
          (isSuccessResult result) lat).successes
          = (ps.keyManager.keys.getD i default).successes + 1 ∧
        (RecordRequest (ps.keyManager.keys.getD i default)
          (isSuccessResult result) lat).failures
          = (ps.keyManager.keys.getD i default).failures) ∧
      (isSuccessResult result = false →
        (RecordRequest (ps.keyManager.keys.getD i default)
          (isSuccessResult result) lat).failures
          = (ps.keyManager.keys.getD i default).failures + 1 ∧
        (RecordRequest (ps.keyManager.keys.getD i default)
          (isSuccessResult result) lat).successes
          = (ps.keyManager.keys.getD i default).successes)) := by
  refine ⟨?_, ?_, ?_, ?_, ?_⟩
  · rintro msg rfl
    rw [roundTrip_stats_eq, updateGlobalStats_transportError_eq]
    refine ⟨Nat.mod_eq_of_lt hF, rfl, ?_⟩
    rw [capRecent_cons_head]
    rfl
  · rintro code rfl h200 h300
    rw [roundTrip_stats_eq, updateGlobalStats_response_eq, if_pos ⟨h200, h300⟩]
    exact ⟨Nat.mod_eq_of_lt hS, rfl, rfl⟩
  · rintro code rfl hc
    rw [roundTrip_stats_eq, updateGlobalStats_response_eq, if_neg hc]
    refine ⟨Nat.mod_eq_of_lt hF, rfl, ?_⟩
    rw [capRecent_cons_head]
    rfl
  · exact roundTrip_keyManager_none ps rk path lat result
  · intro i hlk
    have hmem := getD_mem_of_lt ps.keyManager.keys i
      (lookupKeyIdx_lt ps.keyManager.keys rk i hlk)
    obtain ⟨hr, hs, hf⟩ := hK _ hmem
    obtain ⟨h1, h2, h3⟩ := RecordRequest_counters
      (ps.keyManager.keys.getD i default) (isSuccessResult result) lat hr hs hf
    exact ⟨roundTrip_keyManager_some ps rk path lat result i hlk, h1, h2, h3⟩

/-- A concrete one-credential proxy state for the C4 and C1 evaluations. -/
def psC4 : ProxyServerState :=
  { keyManager := { keys := [newAPIKeyInfo "kkkkkk"], currentKeyIdx := 0 }
    stats := { totalRequests := 0, totalSuccesses := 0, totalFailures := 0
               overallAverageLatencyMicroseconds := 0, recentErrors := []
               totalLatencyForAverage := 0 } }

/-- Witness for C4: an HTTP 500 response through the credential "kkkkkk"
increments the global and per-credential failure counters. -/
theorem c4_outcome_classification_witness :
    (RoundTrip psC4 "kkkkkk" "/v1beta/models/gemini-pro:generateContent" 5
      (TransportResult.response 500)).stats.totalFailures
      = psC4.stats.totalFailures + 1 ∧
    ((RoundTrip psC4 "kkkkkk" "/v1beta/models/gemini-pro:generateContent" 5
      (TransportResult.response 500)).stats.recentErrors.head?).map
      ErrorDetail.errorType = some "HTTP 500" := by
  have h := c4_outcome_classification psC4 "kkkkkk"
    "/v1beta/models/gemini-pro:generateContent" 5 (TransportResult.response 500)
    (by decide) (by decide) (by decide)
  have h3 := h.2.2.1 500 rfl (by decide)
  exact ⟨h3.1, h3.2.2.trans (by decide)⟩

/-! ## C1 -/

/-- The global statistics after one request whose transport fails with a
network error, followed by the reverse proxy's `ErrorHandler` invocation for
that same failed request (the control flow of `httputil.ReverseProxy`:
`RoundTrip` returns an error, then `ErrorHandler` runs). -/
def statsC1 : GlobalProxyStats :=
  ErrorHandler
    (RoundTrip psC4 "kkkkkk" "/v1beta/models/gemini-pro:generateContent" 1000
      (TransportResult.transportError "connection refused")).stats
    "connection refused"

/-- C1 fails on the code: a single transport-failed request is counted once
in `TotalRequests` but twice in `TotalFailures` (once by `RoundTrip`, once
more by `ErrorHandler`, which never touches `TotalRequests`), so afterwards
`total failures + total successes ≤ total attempts` is violated even though
no request is mid-recording. -/
theorem c1_failure_double_count :
    statsC1.totalRequests = 1 ∧
    statsC1.totalSuccesses = 0 ∧
    statsC1.totalFailures = 2 ∧
    ¬ (statsC1.totalFailures + statsC1.totalSuccesses ≤ statsC1.totalRequests) := by
  decide
